import Mathlib

/-!
Verification of the content-collections slice of the `astro` repository
(`src/packages/astro/src/content/utils.ts`): frontmatter error-line lookup,
zod error-map formatting, entry data/slug accessors, config loading and the
content observable.  The definitions below shallowly embed the TypeScript
source; strings are modelled as Lean strings (lists of characters), and
JavaScript string primitives (`indexOf`, `substring`, `split`) are embedded
as explicit list functions.
-/

namespace AstroContent

/-- JS `haystack.indexOf(needle)` on character lists: the index of the first
occurrence of `needle` as a contiguous sublist, `none` when absent
(JS returns `-1`). -/
def findSublist (needle : List Char) : List Char → Option Nat
  | [] => if needle.isPrefixOf ([] : List Char) then some 0 else none
  | c :: rest =>
    if needle.isPrefixOf (c :: rest) then some 0
    else (findSublist needle rest).map (· + 1)

/-- JS `s.split(sep)` for a single-character separator: the (non-empty) list
of chunks between occurrences of `sep`. -/
def splitOnChar (sep : Char) : List Char → List (List Char)
  | [] => [[]]
  | c :: rest =>
    if c = sep then [] :: splitOnChar sep rest
    else
      match splitOnChar sep rest with
      | [] => [[c]]
      | g :: gs => (c :: g) :: gs

/--
Embeds `getFrontmatterErrorLine(rawFrontmatter, frontmatterKey)` from
`src/packages/astro/src/content/utils.ts`:

```ts
const indexOfFrontmatterKey = rawFrontmatter.indexOf(`\n${frontmatterKey}`);
if (indexOfFrontmatterKey === -1) return 0;
const frontmatterBeforeKey = rawFrontmatter.substring(0, indexOfFrontmatterKey + 1);
const numNewlinesBeforeKey = frontmatterBeforeKey.split('\n').length;
return numNewlinesBeforeKey;
```
-/
def getFrontmatterErrorLine (rawFrontmatter frontmatterKey : String) : Nat :=
  match findSublist ('\n' :: frontmatterKey.toList) rawFrontmatter.toList with
  | none => 0
  | some idx =>
    (splitOnChar '\n' (rawFrontmatter.toList.take (idx + 1))).length

/-- The 1-based line number of character position `p` in `l`: one more than
the number of newline characters strictly before `p`. -/
def lineOfPos (l : List Char) (p : Nat) : Nat :=
  (l.take p).count '\n' + 1

theorem splitOnChar_length (sep : Char) (l : List Char) :
    (splitOnChar sep l).length = l.count sep + 1 := by
  induction l with
  | nil => simp [splitOnChar]
  | cons c rest ih =>
    by_cases h : c = sep
    · subst h
      simp [splitOnChar, List.count_cons, ih]
    · rw [splitOnChar]
      simp only [if_neg h]
      rcases hs : splitOnChar sep rest with _ | ⟨g, gs⟩
      · have := splitOnChar_length_pos sep rest
        rw [hs] at this
        exact absurd this (by simp)
      · have : (g :: gs).length = rest.count sep + 1 := by rw [← hs]; exact ih
        simp only [List.length_cons] at this ⊢
        rw [List.count_cons, if_neg (by simp [h])]
        simpa using this
where
  splitOnChar_length_pos (sep : Char) (l : List Char) : 0 < (splitOnChar sep l).length := by
    induction l with
    | nil => simp [splitOnChar]
    | cons c rest ih =>
      rw [splitOnChar]
      by_cases h : c = sep
      · simp [h]
      · simp only [if_neg h]
        rcases hs : splitOnChar sep rest with _ | ⟨g, gs⟩ <;> simp

/-! ### JSON string rendering (JS `JSON.stringify` on a string value) -/

/-- Lowercase hexadecimal digit, as used by `JSON.stringify` unicode escapes. -/
def toHexDigit (n : Nat) : Char :=
  if n < 10 then Char.ofNat (48 + n) else Char.ofNat (87 + n)

/-- How `JSON.stringify` renders one character inside a string literal. -/
def jsonEscapeChar (c : Char) : String :=
  if c = '"' then "\\\""
  else if c = '\\' then "\\\\"
  else if c = '\x08' then "\\b"
  else if c = '\x0c' then "\\f"
  else if c = '\n' then "\\n"
  else if c = '\r' then "\\r"
  else if c = '\t' then "\\t"
  else if c.toNat < 32 then
    "\\u00" ++ String.singleton (toHexDigit (c.toNat / 16)) ++
      String.singleton (toHexDigit (c.toNat % 16))
  else String.singleton c

/-- JS `JSON.stringify(s)` for a string `s`: the escaped text wrapped in
double quotes. -/
def jsonStringify (s : String) : String :=
  "\"" ++ String.join (s.toList.map jsonEscapeChar) ++ "\""

/-! ### zod validation-error model

A zod issue path is a list of string/number segments.  `safeParseAsync`
produces a `ZodError` holding a non-empty list of issues; the `errorMap`
option maps each raw issue to its message.  Issue fields `expected` and
`received` are the type names zod reports on `invalid_type` issues. -/

inductive PathSeg where
  | str (s : String)
  | num (n : Int)
deriving DecidableEq, Repr

/-- JS `String(seg)` on a path segment. -/
def segToString : PathSeg → String
  | .str s => s
  | .num n => toString n

/-- JS `String(x)` on a possibly-`undefined` path segment (array indexing out
of range yields `undefined`, which `String` renders as `"undefined"`). -/
def jsStringOfOptSeg : Option PathSeg → String
  | some seg => segToString seg
  | none => "undefined"

structure ZodIssue where
  code : String
  path : List PathSeg
  expected : String
  received : String
  message : String
deriving DecidableEq, Repr

structure ZodError where
  errors : List ZodIssue
deriving DecidableEq, Repr

structure ErrorMapCtx where
  defaultError : String
deriving DecidableEq, Repr

/-- Embeds `flattenPath` from the source: `(path) => path.join('.')`. -/
def flattenPath (path : List PathSeg) : String :=
  String.intercalate "." (path.map segToString)

/--
Embeds the `errorMap` constant of `src/packages/astro/src/content/utils.ts`:

```ts
const errorMap: z.ZodErrorMap = (error, ctx) => {
  if (error.code === 'invalid_type') {
    const badKeyPath = JSON.stringify(flattenPath(error.path));
    if (error.received === 'undefined') {
      return { message: `${badKeyPath} is required.` };
    } else {
      return { message: `${badKeyPath} should be ${error.expected}, not ${error.received}.` };
    }
  }
  return { message: ctx.defaultError };
};
```
-/
def errorMap (error : ZodIssue) (ctx : ErrorMapCtx) : String :=
  if error.code = "invalid_type" then
    let badKeyPath := jsonStringify (flattenPath error.path)
    if error.received = "undefined" then
      badKeyPath ++ " is required."
    else
      badKeyPath ++ " should be " ++ error.expected ++ ", not " ++ error.received ++ "."
  else
    ctx.defaultError

/-! ### Entries and collection configs

`CollectionConfig.schema` in the source is an arbitrary record of zod field
validators used only as `z.object(schema).safeParseAsync(entry.data, {errorMap})`;
the embedding represents a present schema directly by that induced validation
function (asynchronous validation is modelled by its settled result).
`CollectionConfig.slug` returns a string or a promise of a string; the
embedding models the awaited result. -/

structure EntryInternal where
  rawData : String
  filePath : String

structure Entry (α : Type) where
  id : String
  collection : String
  slug : String
  data : α
  body : String
  internal : EntryInternal

structure SlugArgs (α : Type) where
  id : String
  collection : String
  defaultSlug : String
  body : String
  data : α

structure CollectionConfig (α : Type) where
  schema : Option (α → Except ZodError α)
  slug : Option (SlugArgs α → String)

/-- Embeds `getEntrySlug(entry, collectionConfig)`: optional call of the
user slug function via `?.` with `?? entry.slug` as fallback (the zod-checked
slug function always returns a string, so the fallback fires exactly when
`slug` is absent). -/
def getEntrySlug (entry : Entry α) (collectionConfig : CollectionConfig α) : String :=
  match collectionConfig.slug with
  | some f =>
    f { id := entry.id, data := entry.data, defaultSlug := entry.slug,
        collection := entry.collection, body := entry.body }
  | none => entry.slug

structure ErrorLocation where
  file : String
  line : Nat
  column : Nat
deriving DecidableEq, Repr

/-- The fields of the thrown `AstroError` that this slice determines. -/
structure AstroError where
  message : String
  location : ErrorLocation
deriving DecidableEq, Repr

/-- Modelled from the spec:
`AstroErrorData.MarkdownContentSchemaValidationError.message` lives in
`core/errors`, outside this source slice.  The spec (§4.3, §7) requires the
reported error to include the collection name, the entry id and the formatted
per-field messages produced by the error map. -/
def markdownContentSchemaValidationErrorMessage (collection id : String)
    (error : ZodError) : String :=
  collection ++ " → " ++ id ++ " frontmatter does not match collection schema.\n" ++
    String.intercalate "\n" (error.errors.map (fun i => i.message))

/-- JS `String(parsed.error.errors[0].path[0])`: the top-level key of the
first failing field (zod guarantees at least one issue on failure). -/
def firstErrorTopKey (error : ZodError) : String :=
  match error.errors.head? with
  | some issue => jsStringOfOptSeg issue.path.head?
  | none => "undefined"

/--
Embeds `getEntryData(entry, collectionConfig)`: when a schema is declared,
validate `entry.data` with it; on success return the parsed data, on failure
throw (here: return as `Except.error`) an `AstroError` whose location points
into the raw frontmatter; without a schema, pass `entry.data` through.
-/
def getEntryData (entry : Entry α) (collectionConfig : CollectionConfig α) :
    Except AstroError α :=
  match collectionConfig.schema with
  | none => .ok entry.data
  | some safeParse =>
    match safeParse entry.data with
    | .ok parsedData => .ok parsedData
    | .error zodError =>
      .error
        { message :=
            markdownContentSchemaValidationErrorMessage entry.collection entry.id zodError,
          location :=
            { file := entry.internal.filePath,
              line := getFrontmatterErrorLine entry.internal.rawData
                (firstErrorTopKey zodError),
              column := 0 } }

/-! ### Frontmatter parsing (`parseFrontmatter`)

`matter(fileContents)` is the external gray-matter parser; the embedding
abstracts it by its outcome: either a result (data + body content) or a
thrown JS error.  A `YAMLException` carries a `mark` position and a `reason`
string.  `parseFrontmatter` mutates the caught error object in place
(`err.id = filePath` happens before `err.loc = { file: e.id, ... }`, so the
location's `file` is the already-assigned `filePath`). -/

structure YamlMark where
  line : Nat
  column : Nat
deriving DecidableEq, Repr

structure ViteErrLoc where
  file : Option String
  line : Nat
  column : Nat
deriving DecidableEq, Repr

structure JsError where
  name : String
  message : String
  reason : String
  id : Option String
  mark : YamlMark
  loc : Option ViteErrLoc
deriving DecidableEq, Repr

structure MatterResult (α : Type) where
  data : α
  content : String

/--
Embeds `parseFrontmatter(fileContents, filePath)`:

```ts
try {
  (matter as any).clearCache();
  return matter(fileContents);
} catch (e: any) {
  if (e.name === 'YAMLException') {
    const err = e;
    err.id = filePath;
    err.loc = { file: e.id, line: e.mark.line + 1, column: e.mark.column };
    err.message = e.reason;
    throw err;
  } else { throw e; }
}
```

The gray-matter call is abstracted by its outcome `matterResult`.
-/
def parseFrontmatter (matterResult : Except JsError (MatterResult α))
    (filePath : String) : Except JsError (MatterResult α) :=
  match matterResult with
  | .ok r => .ok r
  | .error e =>
    if e.name = "YAMLException" then
      let e1 := { e with id := some filePath }
      let e2 := { e1 with
        loc := some { file := e1.id, line := e1.mark.line + 1, column := e1.mark.column } }
      .error { e2 with message := e2.reason }
    else
      .error e

/-! ### Config loading (`loadContentConfig`)

The Vite dev server (`createServer` / `ssrLoadModule` / `close`) is the
external module-execution environment; the embedding abstracts module
execution by its outcome and records environment lifecycle events, mirroring
the source's control flow:

```ts
if (!contentPaths.config) return new NotFoundError();
const tempConfigServer = await createServer({ ... });
let unparsedConfig;
try {
  unparsedConfig = await tempConfigServer.ssrLoadModule(contentPaths.config.pathname);
  await tempConfigServer.close();
} catch {
  await tempConfigServer.close();
  return new NotFoundError();
}
const config = contentConfigParser.safeParse(unparsedConfig);
if (config.success) return config.data;
else return new ZodParseError(config.error.message);
```
-/

structure ContentConfig (α : Type) where
  collections : List (String × CollectionConfig α)

/-- The typed return value of `loadContentConfig`: the validated config, a
`NotFoundError`, or a `ZodParseError` (the spec's `SchemaParseError`)
wrapping the validator's message. -/
inductive LoadResult (α : Type) where
  | ok (config : ContentConfig α)
  | notFoundError
  | zodParseError (message : String)

inductive EnvEvent where
  | create
  | close
deriving DecidableEq, Repr

structure LoadOutcome (α : Type) where
  result : LoadResult α
  events : List EnvEvent

/-- Embeds `loadContentConfig({fs, settings})`.  `configPath` is
`getContentPaths(...).config`; `ssrLoadModule` is the module execution step
(its `Except.error` case is the thrown-error path); `safeParse` is
`contentConfigParser.safeParse`, returning the validated config or the zod
error message. -/
def loadContentConfig (configPath : Option String)
    (ssrLoadModule : String → Except Unit μ)
    (safeParse : μ → Except String (ContentConfig α)) : LoadOutcome α :=
  match configPath with
  | none => { result := .notFoundError, events := [] }
  | some p =>
    match ssrLoadModule p with
    | .error _ => { result := .notFoundError, events := [.create, .close] }
    | .ok unparsedConfig =>
      match safeParse unparsedConfig with
      | .ok config => { result := .ok config, events := [.create, .close] }
      | .error msg => { result := .zodParseError msg, events := [.create, .close] }

/-! ### The content observable (`contentObservable`)

Subscriber callbacks are identified by tokens (`SubId`); the JS `Set` of
subscribers is an insertion-ordered duplicate-free list.  A callback's only
semantically relevant effect during notification is changing the subscriber
set (unsubscribing); `act fn subs` gives the subscriber set after callback
`fn` runs on set `subs`.  JS `Set.forEach` iterates in insertion order and
skips entries deleted before being reached: `notifyAux` walks the insertion
snapshot and checks each entry against the live set before invoking it. -/

abbrev SubId := Nat

inductive ContentCtx (Cfg Err : Type) where
  | loading
  | loaded (config : Cfg)
  | error (e : Err)

structure ObsState (C : Type) where
  ctx : C
  subscribers : List SubId

/-- Embeds `contentObservable(initialCtx)`: fresh state, empty subscriber set. -/
def contentObservable (initialCtx : C) : ObsState C :=
  { ctx := initialCtx, subscribers := [] }

/-- Embeds `get()`: returns the current context. -/
def getObs (st : ObsState C) : C :=
  st.ctx

/-- Embeds `subscribe(fn)`: `Set.add` — appends `fn` unless already present. -/
def subscribeObs (st : ObsState C) (fn : SubId) : ObsState C :=
  if fn ∈ st.subscribers then st else { st with subscribers := st.subscribers ++ [fn] }

/-- Embeds the unsubscribe closure returned by `subscribe`: `Set.delete fn`. -/
def unsubscribeObs (st : ObsState C) (fn : SubId) : ObsState C :=
  { st with subscribers := st.subscribers.erase fn }

/-- The `subscribers.forEach((fn) => fn(ctx))` loop: first argument is the
insertion-order snapshot still to visit, second the live subscriber set.
Returns the final subscriber set and the list of invoked subscribers in
invocation order. -/
def notifyAux (act : SubId → List SubId → List SubId) :
    List SubId → List SubId → List SubId × List SubId
  | [], subs => (subs, [])
  | fn :: rest, subs =>
    if fn ∈ subs then
      let r := notifyAux act rest (act fn subs)
      (r.1, fn :: r.2)
    else
      notifyAux act rest subs

/-- Embeds `set(_ctx)`: replaces the state, then synchronously notifies the
subscribers.  Returns the new observable state together with the notification
list (which subscriber was invoked, with which context). -/
def setObs (act : SubId → List SubId → List SubId) (st : ObsState C) (newCtx : C) :
    ObsState C × List (SubId × C) :=
  let r := notifyAux act st.subscribers st.subscribers
  ({ ctx := newCtx, subscribers := r.1 }, r.2.map (fun fn => (fn, newCtx)))

/-- Callback behaviours covered by the observable claims: a callback leaves
the subscriber set unchanged or unsubscribes itself. -/
def SelfOnly (act : SubId → List SubId → List SubId) : Prop :=
  ∀ fn subs, act fn subs = subs ∨ act fn subs = subs.erase fn

/-! ### Observable lemmas -/

theorem notifyAux_visited_eq {act : SubId → List SubId → List SubId}
    (hact : SelfOnly act) :
    ∀ snapshot subs, snapshot.Nodup → (∀ x ∈ snapshot, x ∈ subs) →
      (notifyAux act snapshot subs).2 = snapshot := by
  intro snapshot
  induction snapshot with
  | nil => intro subs _ _; rfl
  | cons fn rest ih =>
    intro subs hnd hsub
    have hfn : fn ∈ subs := hsub fn (by simp)
    rw [notifyAux, if_pos hfn]
    have hrest : ∀ x ∈ rest, x ∈ act fn subs := by
      intro x hx
      have hxs : x ∈ subs := hsub x (by simp [hx])
      have hxne : x ≠ fn := by
        intro hEq
        subst hEq
        exact (List.nodup_cons.mp hnd).1 hx
      rcases hact fn subs with h1 | h1
      · rw [h1]; exact hxs
      · rw [h1]; exact List.mem_erase_of_ne hxne |>.mpr hxs
    simp only
    rw [ih (act fn subs) (List.nodup_cons.mp hnd).2 hrest]

theorem notifyAux_subset {act : SubId → List SubId → List SubId}
    (hact : SelfOnly act) :
    ∀ snapshot subs x, x ∈ (notifyAux act snapshot subs).1 → x ∈ subs := by
  intro snapshot
  induction snapshot with
  | nil => intro subs x hx; exact hx
  | cons fn rest ih =>
    intro subs x hx
    rw [notifyAux] at hx
    by_cases hfn : fn ∈ subs
    · rw [if_pos hfn] at hx
      simp only at hx
      have := ih (act fn subs) x hx
      rcases hact fn subs with h1 | h1
      · rwa [h1] at this
      · rw [h1] at this
        exact List.mem_of_mem_erase this
    · rw [if_neg hfn] at hx
      exact ih subs x hx

theorem notifyAux_nodup {act : SubId → List SubId → List SubId}
    (hact : SelfOnly act) :
    ∀ snapshot subs, subs.Nodup → (notifyAux act snapshot subs).1.Nodup := by
  intro snapshot
  induction snapshot with
  | nil => intro subs h; exact h
  | cons fn rest ih =>
    intro subs hnd
    rw [notifyAux]
    by_cases hfn : fn ∈ subs
    · rw [if_pos hfn]
      simp only
      have : (act fn subs).Nodup := by
        rcases hact fn subs with h1 | h1
        · rwa [h1]
        · rw [h1]; exact hnd.erase fn
      exact ih (act fn subs) this
    · rw [if_neg hfn]
      exact ih subs hnd

theorem notifyAux_self_erased {act : SubId → List SubId → List SubId}
    (hact : SelfOnly act) (u : SubId) (hu : ∀ s, act u s = s.erase u) :
    ∀ snapshot subs, subs.Nodup → u ∈ snapshot →
      u ∉ (notifyAux act snapshot subs).1 := by
  intro snapshot
  induction snapshot with
  | nil => intro subs _ hmem; cases hmem
  | cons fn rest ih =>
    intro subs hnd hmem
    rw [notifyAux]
    by_cases hfn : fn ∈ subs
    · rw [if_pos hfn]
      simp only
      by_cases hEq : fn = u
      · subst hEq
        rw [hu subs]
        intro hcon
        have := notifyAux_subset hact rest (subs.erase fn) fn hcon
        exact (List.Nodup.not_mem_erase hnd) this
      · have hmem' : u ∈ rest := by
          rcases List.mem_cons.mp hmem with h | h
          · exact absurd h.symm hEq
          · exact h
        have hnd' : (act fn subs).Nodup := by
          rcases hact fn subs with h1 | h1
          · rwa [h1]
          · rw [h1]; exact hnd.erase fn
        exact ih (act fn subs) hnd' hmem'
    · rw [if_neg hfn]
      rcases List.mem_cons.mp hmem with h | h
      · subst h
        intro hcon
        exact hfn (notifyAux_subset hact rest subs u hcon)
      · exact ih subs hnd h

theorem notifyAux_visited_mem (act : SubId → List SubId → List SubId) :
    ∀ snapshot subs x, x ∈ (notifyAux act snapshot subs).2 → x ∈ snapshot := by
  intro snapshot
  induction snapshot with
  | nil => intro subs x hx; cases hx
  | cons fn rest ih =>
    intro subs x hx
    rw [notifyAux] at hx
    by_cases hfn : fn ∈ subs
    · rw [if_pos hfn] at hx
      rcases List.mem_cons.mp hx with h | h
      · simp [h]
      · exact List.mem_cons.mpr (Or.inr (ih _ x h))
    · rw [if_neg hfn] at hx
      exact List.mem_cons.mpr (Or.inr (ih subs x hx))

theorem findSublist_newline_mem_take {k l : List Char} {idx : Nat}
    (h : findSublist ('\n' :: k) l = some idx) : '\n' ∈ l.take (idx + 1) := by
  induction l generalizing idx with
  | nil =>
    rw [findSublist] at h
    split at h
    · rename_i hp
      simp [List.isPrefixOf] at hp
    · cases h
  | cons c rest ih =>
    rw [findSublist] at h
    split at h
    · rename_i hp
      cases h
      have hc : '\n' = c := by
        simp [List.isPrefixOf] at hp
        exact hp.1
      subst hc
      simp
    · rcases hmap : findSublist ('\n' :: k) rest with _ | j
      · rw [hmap] at h; cases h
      · rw [hmap] at h
        simp only [Option.map_some'] at h
        cases h
        rw [List.take_succ_cons]
        exact List.mem_cons.mpr (Or.inr (ih hmap))

/--
C4: for every raw frontmatter string and key, `getFrontmatterErrorLine`
returns 0 when the literal substring `"\n" + key` does not occur, and
otherwise the 1-based line number where the key begins (the key starts right
after the matched newline at index `idx`, i.e. at position `idx + 1`);
moreover `getFrontmatterErrorLine "---\ntitle: 5\nbody: x\n---" "title" = 2`
and a key that never appears as a line-start token yields 0.
-/
theorem c4_getFrontmatterErrorLine_spec :
    (∀ raw key : String,
      (findSublist ('\n' :: key.toList) raw.toList = none →
        getFrontmatterErrorLine raw key = 0) ∧
      (∀ idx, findSublist ('\n' :: key.toList) raw.toList = some idx →
        getFrontmatterErrorLine raw key = lineOfPos raw.toList (idx + 1))) ∧
    getFrontmatterErrorLine "---\ntitle: 5\nbody: x\n---" "title" = 2 ∧
    getFrontmatterErrorLine "---\ntitle: 5\nbody: x\n---" "missingKey" = 0 := by
  refine ⟨fun raw key => ⟨?_, ?_⟩, by decide, by decide⟩
  · intro h
    simp only [getFrontmatterErrorLine, h]
  · intro idx h
    simp only [getFrontmatterErrorLine, h]
    rw [splitOnChar_length]
    rfl

/-- C4 witness: the locator applied to a concrete raw string where the key
occurs after the newline at index 1, giving line 2. -/
theorem c4_getFrontmatterErrorLine_spec_witness :
    getFrontmatterErrorLine "a\nfoo: 1" "foo" = lineOfPos "a\nfoo: 1".toList 2 :=
  (c4_getFrontmatterErrorLine_spec.1 "a\nfoo: 1" "foo").2 1 (by decide)

/--
C10: `getFrontmatterErrorLine` never returns 1 — its result is 0 or at least
2 — and a key that appears only at the very start of the first line (not
preceded by a newline) is reported as 0.
-/
theorem c10_getFrontmatterErrorLine_never_one :
    (∀ raw key : String,
      getFrontmatterErrorLine raw key = 0 ∨ 2 ≤ getFrontmatterErrorLine raw key) ∧
    getFrontmatterErrorLine "title: 5\nbody: x" "title" = 0 := by
  refine ⟨fun raw key => ?_, by decide⟩
  rcases h : findSublist ('\n' :: key.toList) raw.toList with _ | idx
  · left
    simp only [getFrontmatterErrorLine, h]
  · right
    have hmem : '\n' ∈ raw.toList.take (idx + 1) := findSublist_newline_mem_take h
    have hcount : 0 < (raw.toList.take (idx + 1)).count '\n' :=
      List.count_pos_iff.mpr hmem
    simp only [getFrontmatterErrorLine, h]
    rw [splitOnChar_length]
    omega

/--
C1: when schema validation fails with a wrong-type (`invalid_type`) issue,
the error-map message is exactly `<field-path> is required.` when the
received value is absent (`undefined`), and
`<field-path> should be <expected-type>, not <actual-type>.` when a value is
present, where `<field-path>` is the dot-joined path rendered in double
quotes; other issue codes fall back to the library's default message.  In
particular the issue zod produces for `data = {}` against a schema requiring
`title: string` is rendered as `"title" is required.`, and the one for
`data = {title: 5}` as `"title" should be string, not number.`.
-/
theorem c1_errorMap_messages :
    (∀ (e : ZodIssue) (ctx : ErrorMapCtx),
      (e.code = "invalid_type" → e.received = "undefined" →
        errorMap e ctx = jsonStringify (flattenPath e.path) ++ " is required.") ∧
      (e.code = "invalid_type" → e.received ≠ "undefined" →
        errorMap e ctx = jsonStringify (flattenPath e.path) ++ " should be " ++
          e.expected ++ ", not " ++ e.received ++ ".") ∧
      (e.code ≠ "invalid_type" → errorMap e ctx = ctx.defaultError)) ∧
    errorMap
      { code := "invalid_type", path := [.str "title"], expected := "string",
        received := "undefined", message := "" }
      { defaultError := "Invalid input" } = "\"title\" is required." ∧
    errorMap
      { code := "invalid_type", path := [.str "title"], expected := "string",
        received := "number", message := "" }
      { defaultError := "Invalid input" } = "\"title\" should be string, not number." := by
  refine ⟨fun e ctx => ⟨?_, ?_, ?_⟩, by decide, by decide⟩
  · intro hcode hrecv
    simp [errorMap, hcode, hrecv]
  · intro hcode hrecv
    simp [errorMap, hcode, hrecv]
  · intro hcode
    simp [errorMap, hcode]

/-- C1 witness: the required-field template at a concrete nested path. -/
theorem c1_errorMap_messages_witness :
    errorMap
      { code := "invalid_type", path := [.str "a", .str "b", .num 0], expected := "string",
        received := "undefined", message := "" }
      { defaultError := "d" } =
      jsonStringify (flattenPath [.str "a", .str "b", .num 0]) ++ " is required." :=
  (c1_errorMap_messages.1
    { code := "invalid_type", path := [.str "a", .str "b", .num 0], expected := "string",
      received := "undefined", message := "" }
    { defaultError := "d" }).1 rfl rfl

/--
C7: when the collection config declares no schema, `getEntryData` returns
`entry.data` unchanged, with no validation performed.
-/
theorem c7_getEntryData_no_schema {α : Type} (entry : Entry α)
    (collectionConfig : CollectionConfig α) (h : collectionConfig.schema = none) :
    getEntryData entry collectionConfig = .ok entry.data := by
  simp only [getEntryData, h]

/-- C7 witness: a concrete entry with a schema-less config passes through. -/
theorem c7_getEntryData_no_schema_witness :
    getEntryData
      ({ id := "one.md", collection := "blog", slug := "one", data := 7, body := "hi",
         internal := { rawData := "---\nn: 7\n---", filePath := "one.md" } } : Entry Nat)
      { schema := none, slug := none } = .ok 7 :=
  c7_getEntryData_no_schema
    ({ id := "one.md", collection := "blog", slug := "one", data := 7, body := "hi",
       internal := { rawData := "---\nn: 7\n---", filePath := "one.md" } } : Entry Nat)
    { schema := none, slug := none } rfl

/--
C8: when `collectionConfig.slug` is defined, `getEntrySlug` invokes it with
`{id, data, defaultSlug: entry.slug, collection, body}` and returns its
(awaited) result; otherwise it returns `entry.slug` verbatim.
-/
theorem c8_getEntrySlug_spec {α : Type} (entry : Entry α)
    (collectionConfig : CollectionConfig α) :
    (∀ f, collectionConfig.slug = some f →
      getEntrySlug entry collectionConfig =
        f { id := entry.id, data := entry.data, defaultSlug := entry.slug,
            collection := entry.collection, body := entry.body }) ∧
    (collectionConfig.slug = none →
      getEntrySlug entry collectionConfig = entry.slug) := by
  constructor
  · intro f hf
    simp only [getEntrySlug, hf]
  · intro hf
    simp only [getEntrySlug, hf]

/-- C8 witness: a concrete slug function receives the documented argument
record, and a slug-less config falls back to the entry's slug. -/
theorem c8_getEntrySlug_spec_witness :
    getEntrySlug
      ({ id := "one.md", collection := "blog", slug := "one", data := 3, body := "b",
         internal := { rawData := "", filePath := "one.md" } } : Entry Nat)
      { schema := none, slug := some (fun args => args.collection ++ "/" ++ args.defaultSlug) }
      = "blog/one" :=
  (c8_getEntrySlug_spec
    ({ id := "one.md", collection := "blog", slug := "one", data := 3, body := "b",
       internal := { rawData := "", filePath := "one.md" } } : Entry Nat)
    { schema := none,
      slug := some (fun args => args.collection ++ "/" ++ args.defaultSlug) }).1
    (fun args => args.collection ++ "/" ++ args.defaultSlug) rfl

/--
C2: when the declared schema rejects `entry.data`, `getEntryData` throws an
error carrying the collection name and entry id (through the
`MarkdownContentSchemaValidationError` message), the formatted message, and a
location with `file = entry._internal.filePath`,
`line = getFrontmatterErrorLine(entry._internal.rawData, String(firstIssue.path[0]))`
and `column = 0`.
-/
theorem c2_getEntryData_error {α : Type} (entry : Entry α)
    (collectionConfig : CollectionConfig α) (safeParse : α → Except ZodError α)
    (zodError : ZodError) (issue : ZodIssue) (moreIssues : List ZodIssue)
    (hschema : collectionConfig.schema = some safeParse)
    (hfail : safeParse entry.data = .error zodError)
    (hissues : zodError.errors = issue :: moreIssues) :
    getEntryData entry collectionConfig = .error
      { message :=
          markdownContentSchemaValidationErrorMessage entry.collection entry.id zodError,
        location :=
          { file := entry.internal.filePath,
            line := getFrontmatterErrorLine entry.internal.rawData
              (jsStringOfOptSeg issue.path.head?),
            column := 0 } } := by
  simp only [getEntryData, hschema, hfail]
  have hkey : firstErrorTopKey zodError = jsStringOfOptSeg issue.path.head? := by
    simp [firstErrorTopKey, hissues]
  rw [hkey]

/-- C2 witness: a concrete entry whose data fails validation on field
`title`; the reported location points at line 2 of the raw frontmatter. -/
theorem c2_getEntryData_error_witness :
    getEntryData
      ({ id := "one.md", collection := "blog", slug := "one", data := 5, body := "",
         internal := { rawData := "---\ntitle: 5\n---", filePath := "src/one.md" } } : Entry Nat)
      { schema := some (fun _ => .error { errors :=
          [{ code := "invalid_type", path := [.str "title"], expected := "string",
             received := "number", message := "m" }] }),
        slug := none }
      = .error
        { message := markdownContentSchemaValidationErrorMessage "blog" "one.md"
            { errors := [{ code := "invalid_type", path := [.str "title"],
                           expected := "string", received := "number", message := "m" }] },
          location :=
            { file := "src/one.md",
              line := getFrontmatterErrorLine "---\ntitle: 5\n---"
                (jsStringOfOptSeg ([PathSeg.str "title"].head?)),
              column := 0 } } :=
  c2_getEntryData_error
    ({ id := "one.md", collection := "blog", slug := "one", data := 5, body := "",
       internal := { rawData := "---\ntitle: 5\n---", filePath := "src/one.md" } } : Entry Nat)
    { schema := some (fun _ => .error { errors :=
        [{ code := "invalid_type", path := [.str "title"], expected := "string",
           received := "number", message := "m" }] }),
      slug := none }
    (fun _ => .error { errors :=
        [{ code := "invalid_type", path := [.str "title"], expected := "string",
           received := "number", message := "m" }] })
    { errors := [{ code := "invalid_type", path := [.str "title"], expected := "string",
                   received := "number", message := "m" }] }
    { code := "invalid_type", path := [.str "title"], expected := "string",
      received := "number", message := "m" } []
    rfl rfl rfl

/--
C3: `loadContentConfig` never throws — it is a total function into typed
results: with no config file it returns `NotFoundError`; when module
execution throws for any reason it returns `NotFoundError` (identical to the
no-config case); when the loaded module fails the `ContentConfig` shape check
it returns a `ZodParseError` (the spec's `SchemaParseError`) wrapping the
validator's message; otherwise it returns the validated config.
-/
theorem c3_loadContentConfig_cases {μ α : Type} (configPath : Option String)
    (ssrLoadModule : String → Except Unit μ)
    (safeParse : μ → Except String (ContentConfig α)) :
    (configPath = none →
      (loadContentConfig configPath ssrLoadModule safeParse).result =
        LoadResult.notFoundError) ∧
    (∀ p e, configPath = some p → ssrLoadModule p = .error e →
      (loadContentConfig configPath ssrLoadModule safeParse).result =
        LoadResult.notFoundError) ∧
    (∀ p m msg, configPath = some p → ssrLoadModule p = .ok m →
      safeParse m = .error msg →
      (loadContentConfig configPath ssrLoadModule safeParse).result =
        LoadResult.zodParseError msg) ∧
    (∀ p m config, configPath = some p → ssrLoadModule p = .ok m →
      safeParse m = .ok config →
      (loadContentConfig configPath ssrLoadModule safeParse).result =
        LoadResult.ok config) := by
  refine ⟨?_, ?_, ?_, ?_⟩
  · intro h
    simp only [loadContentConfig, h]
  · intro p e hp he
    simp only [loadContentConfig, hp, he]
  · intro p m msg hp hm hmsg
    simp only [loadContentConfig, hp, hm, hmsg]
  · intro p m config hp hm hconfig
    simp only [loadContentConfig, hp, hm, hconfig]

/-- C3 witness: a present config path whose module fails the shape check
yields a `ZodParseError` with the validator's message. -/
theorem c3_loadContentConfig_cases_witness :
    (loadContentConfig (some "/root/content.config.ts")
      (fun _ => (Except.ok 0 : Except Unit Nat))
      (fun _ => (Except.error "bad shape" : Except String (ContentConfig Nat)))).result =
      LoadResult.zodParseError "bad shape" :=
  (c3_loadContentConfig_cases (some "/root/content.config.ts")
    (fun _ => (Except.ok 0 : Except Unit Nat))
    (fun _ => (Except.error "bad shape" : Except String (ContentConfig Nat)))).2.2.1
    "/root/content.config.ts" 0 "bad shape" rfl rfl rfl

/--
C9: on every execution path, `loadContentConfig` either never creates the
module-execution environment (no config file) or creates it exactly once and
closes it before returning — both when module execution succeeds and when it
throws; it never returns with the environment still open.
-/
theorem c9_loadContentConfig_env_teardown {μ α : Type} (configPath : Option String)
    (ssrLoadModule : String → Except Unit μ)
    (safeParse : μ → Except String (ContentConfig α)) :
    (loadContentConfig configPath ssrLoadModule safeParse).events = [] ∨
    (loadContentConfig configPath ssrLoadModule safeParse).events =
      [EnvEvent.create, EnvEvent.close] := by
  rcases configPath with _ | p
  · left; rfl
  · right
    rcases hm : ssrLoadModule p with e | m
    · simp only [loadContentConfig, hm]
    · rcases hc : safeParse m with msg | config <;>
        simp only [loadContentConfig, hm, hc]

/--
C5: when the embedded structured-data block is syntactically invalid — the
underlying parser throws a `YAMLException` — `parseFrontmatter` rethrows it
with `id` set to the `filePath` argument, `message` set to the parser's
`reason`, and `loc` re-mapped from the parser's mark position as
`{file (the already-assigned filePath), line = mark.line + 1, column = mark.column}`.
-/
theorem c5_parseFrontmatter_yaml_remap {α : Type} (e : JsError) (filePath : String)
    (h : e.name = "YAMLException") :
    parseFrontmatter (Except.error e : Except JsError (MatterResult α)) filePath =
      .error { e with
        id := some filePath,
        message := e.reason,
        loc := some { file := some filePath, line := e.mark.line + 1,
                      column := e.mark.column } } := by
  simp only [parseFrontmatter, h, if_pos]

/-- C5 witness: a concrete `YAMLException` at mark line 3, column 4 is
remapped to location line 4, column 4 with the file path. -/
theorem c5_parseFrontmatter_yaml_remap_witness :
    parseFrontmatter
      (Except.error
        { name := "YAMLException", message := "orig", reason := "bad indentation",
          id := none, mark := { line := 3, column := 4 }, loc := none }
        : Except JsError (MatterResult Nat)) "src/pages/post.md" =
      .error
        { name := "YAMLException", message := "bad indentation",
          reason := "bad indentation", id := some "src/pages/post.md",
          mark := { line := 3, column := 4 },
          loc := some { file := some "src/pages/post.md", line := 4, column := 4 } } :=
  c5_parseFrontmatter_yaml_remap
    { name := "YAMLException", message := "orig", reason := "bad indentation",
      id := none, mark := { line := 3, column := 4 }, loc := none }
    "src/pages/post.md" rfl

/--
C6: `set(ctx)` replaces the state with the new context and synchronously
notifies every subscriber registered before the call exactly once with the
new context, in registration order; and a subscriber whose callback
unsubscribes itself during its own notification receives no notification
from a subsequent `set` call.
-/
theorem c6_setObs_notifications {C : Type} (act : SubId → List SubId → List SubId)
    (st : ObsState C) (newCtx : C)
    (hact : SelfOnly act) (hnd : st.subscribers.Nodup) :
    (setObs act st newCtx).2 = st.subscribers.map (fun fn => (fn, newCtx)) ∧
    (setObs act st newCtx).1.ctx = newCtx ∧
    (∀ u, u ∈ st.subscribers → (∀ s, act u s = s.erase u) →
      ∀ (newCtx' : C) p, p ∈ (setObs act (setObs act st newCtx).1 newCtx').2 →
        p.1 ≠ u) := by
  refine ⟨?_, rfl, ?_⟩
  · have := notifyAux_visited_eq hact st.subscribers st.subscribers hnd (fun x hx => hx)
    simp only [setObs, this]
  · intro u hu hself newCtx' p hp hpu
    have hout : u ∉ (setObs act st newCtx).1.subscribers :=
      notifyAux_self_erased hact u hself st.subscribers st.subscribers hnd hu
    rcases List.mem_map.mp hp with ⟨fn, hfn, hfnp⟩
    have hfnu : fn = u := by
      have := congrArg Prod.fst hfnp
      simpa [hpu] using this
    subst hfnu
    exact hout (notifyAux_visited_mem act _ _ fn hfn)

/-- C6 witness: two subscribers registered in order both get the new loaded
context exactly once, in registration order. -/
theorem c6_setObs_notifications_witness :
    (setObs (fun _ s => s)
      ({ ctx := ContentCtx.loading, subscribers := [0, 1] }
        : ObsState (ContentCtx Nat Nat)) (ContentCtx.loaded 7)).2 =
      [0, 1].map (fun fn => (fn, ContentCtx.loaded 7)) :=
  (c6_setObs_notifications (fun _ s => s)
    ({ ctx := ContentCtx.loading, subscribers := [0, 1] }
      : ObsState (ContentCtx Nat Nat)) (ContentCtx.loaded 7)
    (fun _ subs => Or.inl rfl) (by decide)).1

end AstroContent
